import Mathlib

/-!
Verification of the Confido-AI rule-based scoring engine.

Shallow embedding of the two scoring modules of the repository:
`app/models/interview_evaluator.py` (namespace `IE`) and
`app/models/ats.py` (namespace `ATS`).  Scores are modelled as exact
rationals; Python `round(x, 2)` is modelled as round-half-even at two
decimals (`roundTo2`).  The TF-IDF cosine-similarity value produced by
the external sklearn library is abstracted as a rational parameter
(`none` models the exception branch); NLTK stopword data is abstracted
as a list parameter.
-/

namespace Confido

/-- Python whitespace class `\s` restricted to ASCII, as used by the
cleaning regexes and by `str.split()` / `str.strip()`. -/
def pyIsSpace (c : Char) : Bool :=
  c = ' ' || c = '\t' || c = '\n' || c = '\r' || c = '\x0b' || c = '\x0c'

/-- Python `str.split()` with no argument: split on whitespace runs,
dropping empty fields. -/
def pySplitWs (s : String) : List String :=
  (s.split (fun c => pyIsSpace c)).filter (fun t => t ≠ "")

/-- Python `str.strip()`: drop leading and trailing whitespace. -/
def pyStrip (s : String) : String :=
  String.mk (((s.data.dropWhile pyIsSpace).reverse.dropWhile pyIsSpace).reverse)

/-- Python `needle in hay` on strings: substring test. -/
def substrB (needle hay : String) : Bool :=
  decide (needle.data <:+: hay.data)

/-- Python 3 `round` to an integer: round half to even. -/
def roundHalfEven (q : ℚ) : ℤ :=
  if q - (⌊q⌋ : ℚ) < 1/2 then ⌊q⌋
  else if (1:ℚ)/2 < q - (⌊q⌋ : ℚ) then ⌊q⌋ + 1
  else if ⌊q⌋ % 2 = 0 then ⌊q⌋ else ⌊q⌋ + 1

/-- Python `round(q, 2)`. -/
def roundTo2 (q : ℚ) : ℚ :=
  (roundHalfEven (q * 100) : ℚ) / 100

/-- Keys of a `collections.Counter` built from a list, in first-occurrence
order (Python dicts preserve insertion order). -/
def orderedKeys (l : List String) : List String :=
  l.foldl (fun acc x => if x ∈ acc then acc else acc ++ [x]) []

/-- Insert into a count-descending list, after all entries with a count
greater than or equal to the new entry's (the stable position). -/
def insertByCount (cnt : String → Nat) : List String → String → List String
  | [], x => [x]
  | y :: ys, x => if cnt y < cnt x then x :: y :: ys else y :: insertByCount cnt ys x

/-- `Counter(l).most_common(n)`: distinct elements sorted by decreasing
count, ties in first-occurrence order, truncated to `n`. -/
def mostCommon (l : List String) (n : Nat) : List String :=
  ((orderedKeys l).foldl (insertByCount (fun x => l.countP (fun y => y = x))) []).take n

/-- Append each element of `l` to `acc` unless already present, as in the
`if item not in target: target.append(item)` loops of `generate_summary`. -/
def dedupAppend (acc : List String) (l : List String) : List String :=
  l.foldl (fun r i => if i ∈ r then r else r ++ [i]) acc

namespace ATS

/-- Result of `ATSAnalyzer.analyze`: the dict
`{score, missing_keywords, matched_keywords}`. -/
structure ATSResult where
  score : ℚ
  missing_keywords : List String
  matched_keywords : List String
deriving DecidableEq

/-- `ATSAnalyzer.clean_text`: `re.sub` deletes every character that is not
an ASCII letter, digit or whitespace, then lowercase and strip. -/
def clean_text (text : String) : String :=
  pyStrip (String.mk ((text.data.filter
    (fun c => c.isAlphanum || pyIsSpace c)).map Char.toLower))

/-- Modelled from the spec: token stream that sklearn's `TfidfVectorizer`
extracts from an already-cleaned document (word runs of at least two
characters, minus sklearn's English stopword list, abstracted as the
`stop` parameter).  Per the spec, vectorization fails exactly when the
whole corpus leaves an empty vocabulary. -/
def sklearnTokens (stop : List String) (doc : String) : List String :=
  (pySplitWs doc).filter (fun t => 2 ≤ t.length ∧ t ∉ stop)

/-- `ATSAnalyzer.calculate_similarity`.  The cosine-similarity value the
sklearn call would produce on a non-degenerate corpus is abstracted as
the parameter `cos`; the `except` branch (empty vocabulary) returns 0. -/
def calculate_similarity (cos : ℚ) (stop : List String)
    (resume_text jd_text : String) : ℚ :=
  let clean_resume := clean_text resume_text
  let clean_jd := clean_text jd_text
  if (sklearnTokens stop clean_resume).isEmpty ∧
      (sklearnTokens stop clean_jd).isEmpty then 0
  else roundTo2 (cos * 100)

/-- `ATSAnalyzer.extract_keywords`: clean, tokenize (NLTK `word_tokenize`
on punctuation-free text splits on whitespace), drop stopwords and short
words, return the `top_n` most common. -/
def extract_keywords (stop : List String) (text : String) (top_n : Nat) :
    List String :=
  let cleaned := clean_text text
  let tokens := (pySplitWs cleaned).filter (fun w => w ∉ stop ∧ 2 < w.length)
  mostCommon tokens top_n

/-- `ATSAnalyzer.analyze`. -/
def analyze (cos : ℚ) (stop : List String) (resume_text jd_text : String) :
    ATSResult :=
  let s := calculate_similarity cos stop resume_text jd_text
  let jd_keywords := extract_keywords stop jd_text 20
  let resume_keywords_set := extract_keywords stop resume_text 100
  let missing := jd_keywords.filter (fun kw => kw ∉ resume_keywords_set)
  let matched := jd_keywords.filter (fun kw => kw ∈ resume_keywords_set)
  ATSResult.mk s missing matched

end ATS

/-- Behavioral recommendation template string of `generate_summary`. -/
def starTemplate : String :=
  "Practice using the STAR method (Situation, Task, Action, Result) for behavioral questions"

/-- Technical recommendation template string of `generate_summary`. -/
def technicalTemplate : String :=
  "Review technical fundamentals and practice explaining concepts clearly"

/-- Situational recommendation template string of `generate_summary`. -/
def situationalTemplate : String :=
  "Practice thinking through hypothetical scenarios and structuring your approach"

namespace IE

/-- STAR cue-word groups of `InterviewEvaluator.__init__`, in dict order. -/
def star_keywords : List (String × List String) :=
  [("situation", ["situation", "context", "background", "when", "where", "project", "role"]),
   ("task", ["task", "responsibility", "goal", "objective", "challenge", "problem", "needed"]),
   ("action", ["action", "did", "implemented", "created", "developed", "led", "managed", "decided", "approach"]),
   ("result", ["result", "outcome", "achieved", "improved", "increased", "decreased", "learned", "success", "impact"])]

/-- Quality indicator vocabulary. -/
def quality_words : List String :=
  ["specifically", "example", "instance", "because", "therefore",
   "however", "additionally", "furthermore", "consequently", "importantly"]

/-- Action-verb vocabulary. -/
def action_verbs : List String :=
  ["achieved", "built", "created", "designed", "developed", "established",
   "implemented", "improved", "increased", "led", "managed", "optimized",
   "reduced", "resolved", "streamlined", "transformed", "delivered"]

/-- `InterviewEvaluator.clean_text`: `re.sub` replaces every character
that is not an ASCII letter, digit or whitespace by a space, then
lowercase and strip. -/
def clean_text (text : String) : String :=
  pyStrip (String.mk ((text.data.map
    (fun c => if c.isAlphanum || pyIsSpace c then c else ' ')).map Char.toLower))

/-- `InterviewEvaluator.tokenize`: clean, word-tokenize (whitespace split
on the punctuation-free cleaned text), drop NLTK stopwords (`stop`) and
words of length at most 2. -/
def tokenize (stop : List String) (text : String) : List String :=
  (pySplitWs (clean_text text)).filter (fun w => w ∉ stop ∧ 2 < w.length)

/-- Match test of `calculate_keyword_score`: the lowercased keyword is a
substring of the lowercased answer, or of some answer token. -/
def kwMatch (stop : List String) (answer_text keyword : String) : Bool :=
  substrB keyword.toLower answer_text.toLower ||
    (tokenize stop answer_text).any (fun t => substrB keyword.toLower t)

/-- `InterviewEvaluator.calculate_keyword_score`: returns
(score, keywords_found, keywords_missed). -/
def calculate_keyword_score (stop : List String) (answer_text : String)
    (expected_keywords : List String) : ℚ × List String × List String :=
  let found := expected_keywords.filter (fun k => kwMatch stop answer_text k)
  let missed := expected_keywords.filter (fun k => !kwMatch stop answer_text k)
  if expected_keywords = [] then (70, found, missed)
  else
    let coverage : ℚ := (found.length : ℚ) / (expected_keywords.length : ℚ)
    (roundTo2 (min 100 (coverage * 100 + 20)), found, missed)

/-- `InterviewEvaluator.calculate_length_score`: returns (score, feedback).
Only the whitespace word count of the answer is consulted (the sentence
count computed by the source is never used). -/
def calculate_length_score (answer_text category : String) : ℚ × String :=
  let word_count := (pySplitWs answer_text).length
  let mm : Nat × Nat :=
    if category = "behavioral" then (100, 250)
    else if category = "technical" then (75, 200)
    else if category = "situational" then (80, 200)
    else (75, 200)
  if (word_count : ℚ) < (mm.1 : ℚ) * (1/2) then
    (50, "Answer is too brief. Provide more detail and specific examples.")
  else if word_count < mm.1 then
    (70, "Answer could be more detailed. Consider adding specific examples.")
  else if (mm.2 : ℚ) * (3/2) < (word_count : ℚ) then
    (75, "Answer is quite long. Consider being more concise while keeping key points.")
  else if mm.2 < word_count then
    (85, "Good detail level, though slightly long.")
  else
    (95, "Appropriate answer length.")

/-- One alternative of the quantifiable-metric regex
`\d+%|\d+ percent|\$\d+|\d+ (users|customers|team|people|projects)`
anchored at the head of a character suffix. -/
def metricAt (l : List Char) : Bool :=
  match l with
  | [] => false
  | c :: rest =>
      (c.isDigit && (List.isPrefixOf ['%'] rest ||
        List.isPrefixOf " percent".data rest ||
        List.isPrefixOf " users".data rest ||
        List.isPrefixOf " customers".data rest ||
        List.isPrefixOf " team".data rest ||
        List.isPrefixOf " people".data rest ||
        List.isPrefixOf " projects".data rest)) ||
      (c = '$' && (match rest with
        | [] => false
        | d :: _ => d.isDigit))

/-- `re.search` of the quantifiable-metric pattern over the lowercased
answer: some suffix matches one alternative at its head. -/
def hasMetric (s : String) : Bool :=
  s.data.tails.any metricAt

/-- `InterviewEvaluator.calculate_structure_score`: returns
(score, strengths, improvements). -/
def calculate_structure_score (answer_text category : String) :
    ℚ × List String × List String :=
  let answer_lower := answer_text.toLower
  let star_found := (star_keywords.filter
    (fun g => g.2.any (fun kw => substrB kw answer_lower))).map (fun g => g.1)
  let star_missing := (star_keywords.filter
    (fun g => !g.2.any (fun kw => substrB kw answer_lower))).map (fun g => g.1)
  let starBonus : ℚ :=
    if category = "behavioral" then
      (if 3 ≤ star_found.length then 20
       else if 2 ≤ star_found.length then 10 else 0)
    else 0
  let starStrengths : List String :=
    if category = "behavioral" then
      (if 3 ≤ star_found.length then ["Good use of STAR method structure"]
       else if 2 ≤ star_found.length then ["Partial STAR method structure"] else [])
    else []
  let starImprovements : List String :=
    if category = "behavioral" ∧ star_missing ≠ [] then
      ["Consider adding more about: " ++ String.intercalate ", " star_missing]
    else []
  let quality_count := (quality_words.filter
    (fun w => substrB w answer_lower)).length
  let qualityBonus : ℚ :=
    if 3 ≤ quality_count then 10 else if 1 ≤ quality_count then 5 else 0
  let qualityStrengths : List String :=
    if 3 ≤ quality_count then ["Well-articulated response with clear reasoning"] else []
  let action_count := (action_verbs.filter
    (fun v => substrB v answer_lower)).length
  let actionBonus : ℚ :=
    if 3 ≤ action_count then 10 else if 1 ≤ action_count then 5 else 0
  let actionStrengths : List String :=
    if 3 ≤ action_count then ["Strong use of action verbs demonstrating ownership"] else []
  let hasExample :=
    (["for example", "for instance", "specifically", "such as"] : List String).any
      (fun p => substrB p answer_lower)
  let exampleBonus : ℚ := if hasExample then 5 else 0
  let exampleStrengths : List String :=
    if hasExample then ["Includes specific examples"] else []
  let exampleImprovements : List String :=
    if hasExample then []
    else ["Consider adding specific examples to strengthen your answer"]
  let hasQuant := hasMetric answer_lower
  let metricBonus : ℚ := if hasQuant then 10 else 0
  let metricStrengths : List String :=
    if hasQuant then ["Includes quantifiable results/metrics"] else []
  let metricImprovements : List String :=
    if hasQuant then []
    else if category = "behavioral" ∨ category = "technical" then
      ["Consider adding quantifiable metrics or results"]
    else []
  (min 100 (60 + starBonus + qualityBonus + actionBonus + exampleBonus + metricBonus),
   starStrengths ++ qualityStrengths ++ actionStrengths ++ exampleStrengths ++ metricStrengths,
   starImprovements ++ exampleImprovements ++ metricImprovements)

/-- `InterviewEvaluator.calculate_relevance_score`.  The TF-IDF cosine
similarity of the cleaned question and answer computed by the sklearn
call is abstracted as `simRes`; `none` models the exception branch of
the `try` block. -/
def calculate_relevance_score (simRes : Option ℚ) : ℚ :=
  match simRes with
  | some similarity => roundTo2 (max 40 (similarity * 100 + 30))
  | none => 60

/-- Return value of `evaluate_answer`. -/
structure AnswerEvaluation where
  score : ℚ
  feedback : String
  strengths : List String
  improvements : List String
  keywords_found : List String
  keywords_missed : List String
deriving DecidableEq

/-- `InterviewEvaluator.evaluate_answer`.  The question text enters only
through the TF-IDF similarity, abstracted as `simRes`; the unused
`job_role` and `job_description` parameters of the source are omitted. -/
def evaluate_answer (simRes : Option ℚ) (stop : List String)
    (category answer_text : String) (expected_keywords : List String) :
    AnswerEvaluation :=
  let ks := calculate_keyword_score stop answer_text expected_keywords
  let keyword_score := ks.1
  let keywords_found := ks.2.1
  let keywords_missed := ks.2.2
  let ls := calculate_length_score answer_text category
  let length_score := ls.1
  let length_feedback := ls.2
  let ss := calculate_structure_score answer_text category
  let structure_score := ss.1
  let relevance_score := calculate_relevance_score simRes
  let final_score :=
    keyword_score * (25/100) + length_score * (15/100) +
    structure_score * (35/100) + relevance_score * (25/100)
  let strengths0 :=
    ss.2.1 ++
    (if 80 ≤ keyword_score then ["Good coverage of key concepts"] else []) ++
    (if 80 ≤ relevance_score then ["Answer is highly relevant to the question"] else [])
  let improvements0 :=
    (if substrB "too brief" length_feedback.toLower then [length_feedback] else []) ++
    ss.2.2 ++
    (if keyword_score < 60 ∧ keywords_missed ≠ [] then
      ["Consider addressing: " ++ String.intercalate ", " (keywords_missed.take 3)]
     else [])
  let strengths :=
    if strengths0 = [] then ["Answered the question directly"] else strengths0
  let improvements :=
    if improvements0 = [] ∧ final_score < 95 then
      ["Practice elaborating with more specific details"]
    else improvements0
  let feedback :=
    if 85 ≤ final_score then
      "Excellent answer! You demonstrated strong understanding and communicated effectively."
    else if 70 ≤ final_score then
      "Good answer with solid points. Some areas could be strengthened with more detail or examples."
    else if 55 ≤ final_score then
      "Adequate answer, but missing key elements. Focus on providing more specific examples and addressing all aspects of the question."
    else
      "Answer needs improvement. Consider using the STAR method for behavioral questions and providing concrete examples."
  AnswerEvaluation.mk (roundTo2 final_score) feedback (strengths.take 5)
    (improvements.take 5) keywords_found keywords_missed

/-- One element of the `answers` argument of `generate_summary`. -/
structure AnswerIn where
  category : String
  score : ℚ
  strengths : List String
  improvements : List String
deriving DecidableEq

/-- Return value of `generate_summary`; `category_scores` is split into
its three fixed keys, each `none` when that category has no answers. -/
structure InterviewSummary where
  overall_score : ℚ
  readiness_level : String
  strong_areas : List String
  weak_areas : List String
  behavioral_avg : Option ℚ
  technical_avg : Option ℚ
  situational_avg : Option ℚ
  recommendations : List String
  feedback_summary : String

/-- Scores collected for one category key, in answer order. -/
def catScores (answers : List AnswerIn) (cat : String) : List ℚ :=
  (answers.filter (fun a => a.category = cat)).map (fun a => a.score)

/-- Per-category average: `round(sum/len, 2)` when nonempty, else `None`. -/
def avgOf (l : List ℚ) : Option ℚ :=
  if l = [] then none else some (roundTo2 (l.sum / (l.length : ℚ)))

/-- Python truthiness test `avg_category_scores.get(cat) and value < 70`
guarding each per-category recommendation. -/
def recCondition (o : Option ℚ) : Bool :=
  match o with
  | none => false
  | some v => if v = 0 then false else decide (v < 70)

/-- Strong/weak-area tag for a category, `f"{cat.capitalize()} questions"`. -/
def areaTag (cat : String) : String :=
  cat.capitalize ++ " questions"

/-- Per-category recommendation templates of `generate_summary`, emitted
under the Python-truthiness guards. -/
def recs0Of (avgB avgT avgS : Option ℚ) : List String :=
  (if recCondition avgB then [starTemplate] else []) ++
  (if recCondition avgT then [technicalTemplate] else []) ++
  (if recCondition avgS then [situationalTemplate] else [])

/-- Recommendation pipeline of `generate_summary`: category templates,
then the two most common improvements (deduplicated), then the fallback
when still empty, capped at 5.  `mc` is `most_common(2)` of the pooled
improvements and `ov` the overall score. -/
def recsFinal (avgB avgT avgS : Option ℚ) (mc : List String) (ov : ℚ) :
    List String :=
  let recs1 := dedupAppend (recs0Of avgB avgT avgS) mc
  (if recs1 = [] then
    (if 85 ≤ ov then ["Continue practicing to maintain your strong interview skills"]
     else ["Practice with more mock interviews to build confidence"])
   else recs1).take 5

/-- `InterviewEvaluator.generate_summary`; the `job_description`
parameter of the source is never read in its body and is omitted. -/
def generate_summary (job_role : String) (answers : List AnswerIn) :
    InterviewSummary :=
  if answers = [] then
    InterviewSummary.mk 0 "Low" [] ["No answers provided"]
      (some 0) (some 0) (some 0)
      ["Complete the interview to receive feedback"] "Interview incomplete."
  else
    let behavioral := catScores answers "behavioral"
    let technical := catScores answers "technical"
    let situational := catScores answers "situational"
    let all_strengths := (answers.map (fun a => a.strengths)).flatten
    let all_improvements := (answers.map (fun a => a.improvements)).flatten
    let avgB := avgOf behavioral
    let avgT := avgOf technical
    let avgS := avgOf situational
    let total_scores := behavioral ++ technical ++ situational
    let overall_score :=
      if total_scores = [] then 0
      else roundTo2 (total_scores.sum / (total_scores.length : ℚ))
    let readiness_level :=
      if 80 ≤ overall_score then "High"
      else if 60 ≤ overall_score then "Medium"
      else "Low"
    let catStrong := fun (cat : String) (o : Option ℚ) =>
      match o with
      | none => ([] : List String)
      | some v => if 75 ≤ v then [areaTag cat] else []
    let catWeak := fun (cat : String) (o : Option ℚ) =>
      match o with
      | none => ([] : List String)
      | some v => if v < 60 then [areaTag cat] else []
    let strong0 := catStrong "behavioral" avgB ++ catStrong "technical" avgT ++
      catStrong "situational" avgS
    let weak_areas := catWeak "behavioral" avgB ++ catWeak "technical" avgT ++
      catWeak "situational" avgS
    let top_strengths := mostCommon all_strengths 3
    let strong_areas := (dedupAppend strong0 top_strengths).take 5
    let recommendations := recsFinal avgB avgT avgS (mostCommon all_improvements 2) overall_score
    let feedback_summary :=
      if readiness_level = "High" then
        "Excellent interview performance for " ++ job_role ++
        "! You demonstrated strong communication skills and relevant experience. You are well-prepared for interviews in this role."
      else if readiness_level = "Medium" then
        "Good interview performance with room for improvement. You have a solid foundation for " ++
        job_role ++
        ", but should focus on strengthening your responses with more specific examples and clearer structure."
      else
        "Your interview performance indicates areas needing development for " ++
        job_role ++
        ". Focus on the recommended improvements and practice regularly to build confidence and clarity in your responses."
    InterviewSummary.mk overall_score readiness_level strong_areas weak_areas
      avgB avgT avgS recommendations feedback_summary

end IE

/-- Spec-side definition for the overall average: the scores of all
answers whose category is one of the three known categories, pooled in
input order ("overall = average over all answers pooled together"). -/
def knownScores (answers : List IE.AnswerIn) : List ℚ :=
  (answers.filter (fun a => a.category = "behavioral" ∨ a.category = "technical" ∨
    a.category = "situational")).map (fun a => a.score)

theorem floor_le_roundHalfEven (q : ℚ) : ⌊q⌋ ≤ roundHalfEven q := by
  unfold roundHalfEven
  split_ifs <;> omega

theorem roundHalfEven_le_floor_add_one (q : ℚ) : roundHalfEven q ≤ ⌊q⌋ + 1 := by
  unfold roundHalfEven
  split_ifs <;> omega

theorem int_le_roundHalfEven {z : ℤ} {q : ℚ} (h : (z : ℚ) ≤ q) :
    z ≤ roundHalfEven q :=
  le_trans (Int.le_floor.mpr h) (floor_le_roundHalfEven q)

theorem roundHalfEven_le_int {z : ℤ} {q : ℚ} (h : q ≤ (z : ℚ)) :
    roundHalfEven q ≤ z := by
  have hf : ⌊q⌋ ≤ z := by
    have := Int.floor_le_floor h
    simpa using this
  rcases lt_or_eq_of_le hf with hlt | heq
  · exact le_trans (roundHalfEven_le_floor_add_one q) (by omega)
  · have hqz : q = (z : ℚ) := le_antisymm h (by
      rw [← heq]; exact Int.floor_le q)
    subst hqz
    unfold roundHalfEven
    simp [Int.floor_intCast]

theorem roundHalfEven_mono {a b : ℚ} (h : a ≤ b) :
    roundHalfEven a ≤ roundHalfEven b := by
  have hf : ⌊a⌋ ≤ ⌊b⌋ := Int.floor_le_floor h
  rcases lt_or_eq_of_le hf with hlt | heq
  · exact le_trans (roundHalfEven_le_floor_add_one a)
      (le_trans (by omega) (floor_le_roundHalfEven b))
  · unfold roundHalfEven
    have hfr : a - (⌊a⌋ : ℚ) ≤ b - (⌊b⌋ : ℚ) := by
      have : ((⌊a⌋ : ℤ) : ℚ) = ((⌊b⌋ : ℤ) : ℚ) := by rw [heq]
      linarith
    split_ifs with h1 h2 h3 h4 h5 h6 h7 h8 h9 h10 <;>
      first
        | omega
        | (exfalso; linarith)

theorem int_le_roundTo2 {z : ℤ} {q : ℚ} (h : (z : ℚ) ≤ q) :
    (z : ℚ) ≤ roundTo2 q := by
  unfold roundTo2
  have h100 : ((z * 100 : ℤ) : ℚ) ≤ q * 100 := by push_cast; linarith
  have h2 := int_le_roundHalfEven h100
  have h3 : ((z * 100 : ℤ) : ℚ) ≤ ((roundHalfEven (q * 100) : ℤ) : ℚ) :=
    Int.cast_le.mpr h2
  push_cast at h3
  linarith

theorem roundTo2_le_int {z : ℤ} {q : ℚ} (h : q ≤ (z : ℚ)) :
    roundTo2 q ≤ (z : ℚ) := by
  unfold roundTo2
  have h100 : q * 100 ≤ ((z * 100 : ℤ) : ℚ) := by push_cast; linarith
  have hle := roundHalfEven_le_int h100
  have h3 : ((roundHalfEven (q * 100) : ℤ) : ℚ) ≤ ((z * 100 : ℤ) : ℚ) :=
    Int.cast_le.mpr hle
  push_cast at h3
  linarith

theorem roundTo2_mono {a b : ℚ} (h : a ≤ b) : roundTo2 a ≤ roundTo2 b := by
  unfold roundTo2
  have h2 : roundHalfEven (a * 100) ≤ roundHalfEven (b * 100) :=
    roundHalfEven_mono (by linarith)
  have hc : ((roundHalfEven (a * 100) : ℤ) : ℚ) ≤ ((roundHalfEven (b * 100) : ℤ) : ℚ) :=
    Int.cast_le.mpr h2
  linarith

theorem orderedKeys_subset_aux (l : List String) :
    ∀ acc x, x ∈ l.foldl (fun a y => if y ∈ a then a else a ++ [y]) acc →
      x ∈ acc ∨ x ∈ l := by
  induction l with
  | nil => intro acc x h; exact Or.inl h
  | cons a t ih =>
      intro acc x h
      rcases ih _ x h with h1 | h1
      · by_cases ha : a ∈ acc
        · simp [ha] at h1; exact Or.inl h1
        · simp [ha] at h1
          rcases h1 with h1 | h1
          · exact Or.inl h1
          · exact Or.inr (by simp [h1])
      · exact Or.inr (List.mem_cons_of_mem a h1)

theorem orderedKeys_subset {l : List String} {x : String}
    (h : x ∈ orderedKeys l) : x ∈ l := by
  rcases orderedKeys_subset_aux l [] x h with h1 | h1
  · simp at h1
  · exact h1

theorem orderedKeys_nodup_aux (l : List String) :
    ∀ acc, acc.Nodup → (l.foldl (fun a y => if y ∈ a then a else a ++ [y]) acc).Nodup := by
  induction l with
  | nil => intro acc h; exact h
  | cons a t ih =>
      intro acc h
      by_cases ha : a ∈ acc
      · simpa [ha] using ih acc h
      · refine ih _ ?_
        simp only [ha, if_false]
        refine List.Nodup.append h (List.nodup_singleton a) ?_
        intro x hx hxa
        simp at hxa
        subst hxa
        exact ha hx

theorem orderedKeys_nodup (l : List String) : (orderedKeys l).Nodup :=
  orderedKeys_nodup_aux l [] List.nodup_nil

theorem insertByCount_perm (cnt : String → Nat) (acc : List String) (x : String) :
    List.Perm (insertByCount cnt acc x) (x :: acc) := by
  induction acc with
  | nil => simp [insertByCount]
  | cons y ys ih =>
      unfold insertByCount
      split_ifs
      · exact List.Perm.refl _
      · exact (List.Perm.cons y ih).trans (List.Perm.swap x y ys)

theorem sortByCount_perm (cnt : String → Nat) (l : List String) :
    ∀ acc, List.Perm (l.foldl (insertByCount cnt) acc) (acc ++ l) := by
  induction l with
  | nil => intro acc; simp
  | cons a t ih =>
      intro acc
      have h1 : List.Perm (t.foldl (insertByCount cnt) (insertByCount cnt acc a))
          (insertByCount cnt acc a ++ t) := ih _
      have h2 : List.Perm (insertByCount cnt acc a ++ t) ((a :: acc) ++ t) :=
        (insertByCount_perm cnt acc a).append_right t
      have h3 : List.Perm ((a :: acc) ++ t) (acc ++ a :: t) := List.perm_middle.symm
      exact (h1.trans h2).trans h3

theorem mostCommon_subset {l : List String} {n : Nat} {x : String}
    (h : x ∈ mostCommon l n) : x ∈ l := by
  unfold mostCommon at h
  have h1 := List.mem_of_mem_take h
  have h2 := (sortByCount_perm (fun x => l.countP (fun y => y = x)) (orderedKeys l) []).mem_iff.mp h1
  simp at h2
  exact orderedKeys_subset h2

theorem mostCommon_nodup (l : List String) (n : Nat) : (mostCommon l n).Nodup := by
  unfold mostCommon
  refine List.Nodup.sublist (List.take_sublist _ _) ?_
  exact ((sortByCount_perm (fun x => l.countP (fun y => y = x)) (orderedKeys l) []).nodup_iff).mpr
    (by simpa using orderedKeys_nodup l)

theorem dedupAppend_mem {acc l : List String} {x : String}
    (h : x ∈ dedupAppend acc l) : x ∈ acc ∨ x ∈ l := by
  induction l generalizing acc with
  | nil => exact Or.inl h
  | cons a t ih =>
      unfold dedupAppend at h
      simp only [List.foldl_cons] at h
      rcases @ih (if a ∈ acc then acc else acc ++ [a]) h with h1 | h1
      · by_cases ha : a ∈ acc
        · simp [ha] at h1; exact Or.inl h1
        · simp [ha] at h1
          rcases h1 with h1 | h1
          · exact Or.inl h1
          · exact Or.inr (by simp [h1])
      · exact Or.inr (List.mem_cons_of_mem a h1)

theorem mem_dedupAppend_of_mem_left {acc l : List String} {x : String}
    (h : x ∈ acc) : x ∈ dedupAppend acc l := by
  induction l generalizing acc with
  | nil => exact h
  | cons a t ih =>
      unfold dedupAppend
      simp only [List.foldl_cons]
      exact ih (by by_cases ha : a ∈ acc <;> simp [ha, h])

theorem dedupAppend_length {acc l : List String} :
    (dedupAppend acc l).length ≤ acc.length + l.length := by
  induction l generalizing acc with
  | nil => simp [dedupAppend]
  | cons a t ih =>
      unfold dedupAppend
      simp only [List.foldl_cons, List.length_cons]
      by_cases ha : a ∈ acc
      · simp only [ha, if_true]
        exact le_trans (@ih acc) (by omega)
      · simp only [ha, if_false]
        refine le_trans (@ih (acc ++ [a])) ?_
        simp only [List.length_append, List.length_singleton]
        omega

theorem dedupAppend_ne_nil {acc l : List String} (h : acc ≠ []) :
    dedupAppend acc l ≠ [] := by
  intro hcon
  rcases acc with _ | ⟨a, t⟩
  · exact h rfl
  · have : a ∈ dedupAppend (a :: t) l := mem_dedupAppend_of_mem_left (by simp)
    rw [hcon] at this
    simp at this

theorem recCondition_iff (o : Option ℚ) :
    IE.recCondition o = true ↔ ∃ v, o = some v ∧ v ≠ 0 ∧ v < 70 := by
  cases o with
  | none => simp [IE.recCondition]
  | some v =>
      by_cases hv : v = 0
      · simp [IE.recCondition, hv]
      · simp [IE.recCondition, hv]

theorem mem_dedupAppend_iff {acc l : List String} {x : String} (hx : x ∉ l) :
    x ∈ dedupAppend acc l ↔ x ∈ acc :=
  ⟨fun h => (dedupAppend_mem h).resolve_right hx, mem_dedupAppend_of_mem_left⟩

theorem mean_bounds {l : List ℚ} (hl : l ≠ [])
    (h : ∀ x ∈ l, 0 ≤ x ∧ x ≤ 100) :
    0 ≤ l.sum / (l.length : ℚ) ∧ l.sum / (l.length : ℚ) ≤ 100 := by
  have hpos : (0:ℚ) < (l.length : ℚ) := by
    have := List.length_pos.mpr hl
    exact_mod_cast this
  constructor
  · exact div_nonneg (List.sum_nonneg (fun x hx => (h x hx).1)) (le_of_lt hpos)
  · rw [div_le_iff₀ hpos]
    have hs := List.sum_le_card_nsmul l 100 (fun x hx => (h x hx).2)
    rw [nsmul_eq_mul] at hs
    linarith

theorem avgOf_bounds {l : List ℚ} (h : ∀ x ∈ l, 0 ≤ x ∧ x ≤ 100) :
    ∀ v, IE.avgOf l = some v → 0 ≤ v ∧ v ≤ 100 := by
  intro v hv
  unfold IE.avgOf at hv
  by_cases hl : l = []
  · simp [hl] at hv
  · simp only [hl, if_false, Option.some.injEq] at hv
    subst hv
    have hm := mean_bounds hl h
    constructor
    · have h0 : ((0:ℤ):ℚ) ≤ l.sum / (l.length : ℚ) := by push_cast; exact hm.1
      have := int_le_roundTo2 h0
      exact_mod_cast this
    · have h100 : l.sum / (l.length : ℚ) ≤ ((100:ℤ):ℚ) := by push_cast; exact hm.2
      have := roundTo2_le_int h100
      exact_mod_cast this

theorem keyword_score_bounds (stop : List String) (ans : String)
    (kws : List String) :
    0 ≤ (IE.calculate_keyword_score stop ans kws).1 ∧
      (IE.calculate_keyword_score stop ans kws).1 ≤ 100 := by
  unfold IE.calculate_keyword_score
  by_cases h : kws = []
  · simp only [h, if_true]
    norm_num
  · simp only [h, if_false]
    have hflen : ((kws.filter (fun k => IE.kwMatch stop ans k)).length : ℚ) ≤
        (kws.length : ℚ) := by
      exact_mod_cast List.length_filter_le _ kws
    have hlpos : (0:ℚ) < (kws.length : ℚ) := by
      have := List.length_pos.mpr h
      exact_mod_cast this
    have hc0 : (0:ℚ) ≤ ((kws.filter (fun k => IE.kwMatch stop ans k)).length : ℚ) /
        (kws.length : ℚ) := div_nonneg (by positivity) (le_of_lt hlpos)
    have hc1 : ((kws.filter (fun k => IE.kwMatch stop ans k)).length : ℚ) /
        (kws.length : ℚ) ≤ 1 := (div_le_one hlpos).mpr hflen
    constructor
    · have hlow : ((0:ℤ):ℚ) ≤
          min 100 ((kws.filter (fun k => IE.kwMatch stop ans k)).length /
            (kws.length : ℚ) * 100 + 20) := by
        push_cast
        exact le_min (by norm_num) (by nlinarith)
      have := int_le_roundTo2 hlow
      exact_mod_cast this
    · have hhigh : min 100 ((kws.filter (fun k => IE.kwMatch stop ans k)).length /
          (kws.length : ℚ) * 100 + 20) ≤ ((100:ℤ):ℚ) := by
        push_cast
        exact min_le_left _ _
      have := roundTo2_le_int hhigh
      exact_mod_cast this

theorem length_score_bounds (ans cat : String) :
    50 ≤ (IE.calculate_length_score ans cat).1 ∧
      (IE.calculate_length_score ans cat).1 ≤ 95 := by
  unfold IE.calculate_length_score
  dsimp only
  split_ifs <;> norm_num

theorem min100_bounds {a b c d e : ℚ} (ha : 0 ≤ a) (hb : 0 ≤ b) (hc : 0 ≤ c)
    (hd : 0 ≤ d) (he : 0 ≤ e) :
    60 ≤ min 100 (60 + a + b + c + d + e) ∧
      min 100 (60 + a + b + c + d + e) ≤ 100 :=
  ⟨le_min (by norm_num) (by linarith), min_le_left _ _⟩

theorem structure_score_bounds (ans cat : String) :
    60 ≤ (IE.calculate_structure_score ans cat).1 ∧
      (IE.calculate_structure_score ans cat).1 ≤ 100 := by
  unfold IE.calculate_structure_score
  dsimp only
  apply min100_bounds <;> (split_ifs <;> norm_num)

theorem relevance_score_bounds {s : ℚ} (h1 : s ≤ 1) :
    40 ≤ IE.calculate_relevance_score (some s) ∧
      IE.calculate_relevance_score (some s) ≤ 130 := by
  unfold IE.calculate_relevance_score
  constructor
  · have hlow : ((40:ℤ):ℚ) ≤ max 40 (s * 100 + 30) := by
      push_cast
      exact le_max_left _ _
    have := int_le_roundTo2 hlow
    exact_mod_cast this
  · have hhigh : max 40 (s * 100 + 30) ≤ ((130:ℤ):ℚ) := by
      push_cast
      exact max_le (by norm_num) (by linarith)
    have := roundTo2_le_int hhigh
    exact_mod_cast this

theorem roundTo2_le_div100 {z : ℤ} {q : ℚ} (h : q * 100 ≤ (z : ℚ)) :
    roundTo2 q ≤ (z : ℚ) / 100 := by
  unfold roundTo2
  have h2 := roundHalfEven_le_int h
  have h3 : ((roundHalfEven (q * 100) : ℤ) : ℚ) ≤ (z : ℚ) := by exact_mod_cast h2
  linarith

theorem relevance_default_bounds (simRes : Option ℚ)
    (hsim : ∀ s, simRes = some s → s ≤ 1) :
    40 ≤ IE.calculate_relevance_score simRes ∧
      IE.calculate_relevance_score simRes ≤ 130 := by
  cases simRes with
  | none =>
      unfold IE.calculate_relevance_score
      norm_num
  | some s => exact relevance_score_bounds (hsim s rfl)

theorem evaluate_answer_score_bounds (simRes : Option ℚ) (stop : List String)
    (cat ans : String) (kws : List String)
    (hsim : ∀ s, simRes = some s → s ≤ 1) :
    0 ≤ (IE.evaluate_answer simRes stop cat ans kws).score ∧
      (IE.evaluate_answer simRes stop cat ans kws).score ≤ 427 / 4 := by
  have hk := keyword_score_bounds stop ans kws
  have hl := length_score_bounds ans cat
  have hst := structure_score_bounds ans cat
  have hr := relevance_default_bounds simRes hsim
  unfold IE.evaluate_answer
  dsimp only
  constructor
  · have hlow : ((0:ℤ):ℚ) ≤
        (IE.calculate_keyword_score stop ans kws).1 * (25/100) +
        (IE.calculate_length_score ans cat).1 * (15/100) +
        (IE.calculate_structure_score ans cat).1 * (35/100) +
        IE.calculate_relevance_score simRes * (25/100) := by
      push_cast
      nlinarith [hk.1, hl.1, hst.1, hr.1]
    have := int_le_roundTo2 hlow
    exact_mod_cast this
  · have hhigh :
        ((IE.calculate_keyword_score stop ans kws).1 * (25/100) +
         (IE.calculate_length_score ans cat).1 * (15/100) +
         (IE.calculate_structure_score ans cat).1 * (35/100) +
         IE.calculate_relevance_score simRes * (25/100)) * 100 ≤ ((10675:ℤ):ℚ) := by
      push_cast
      nlinarith [hk.2, hl.2, hst.2, hr.2]
    have := roundTo2_le_div100 hhigh
    push_cast at this
    linarith

theorem round_mean_bounds {l : List ℚ} (hl : l ≠ [])
    (h : ∀ x ∈ l, 0 ≤ x ∧ x ≤ 100) :
    0 ≤ roundTo2 (l.sum / (l.length : ℚ)) ∧
      roundTo2 (l.sum / (l.length : ℚ)) ≤ 100 := by
  have hm := mean_bounds hl h
  constructor
  · have h0 : ((0:ℤ):ℚ) ≤ l.sum / (l.length : ℚ) := by push_cast; exact hm.1
    have := int_le_roundTo2 h0
    exact_mod_cast this
  · have h100 : l.sum / (l.length : ℚ) ≤ ((100:ℤ):ℚ) := by push_cast; exact hm.2
    have := roundTo2_le_int h100
    exact_mod_cast this

theorem catScores_mem {answers : List IE.AnswerIn} {cat : String} {x : ℚ}
    (hx : x ∈ IE.catScores answers cat) : ∃ a ∈ answers, a.score = x := by
  simp only [IE.catScores, List.mem_map, List.mem_filter] at hx
  obtain ⟨a, ⟨ha, _⟩, hax⟩ := hx
  exact ⟨a, ha, hax⟩

theorem generate_summary_bounds (role : String) (answers : List IE.AnswerIn)
    (h : ∀ a ∈ answers, 0 ≤ a.score ∧ a.score ≤ 100) :
    (0 ≤ (IE.generate_summary role answers).overall_score ∧
      (IE.generate_summary role answers).overall_score ≤ 100) ∧
    (∀ v, (IE.generate_summary role answers).behavioral_avg = some v →
      0 ≤ v ∧ v ≤ 100) ∧
    (∀ v, (IE.generate_summary role answers).technical_avg = some v →
      0 ≤ v ∧ v ≤ 100) ∧
    (∀ v, (IE.generate_summary role answers).situational_avg = some v →
      0 ≤ v ∧ v ≤ 100) := by
  have hcat : ∀ cat : String, ∀ x ∈ IE.catScores answers cat, 0 ≤ x ∧ x ≤ 100 := by
    intro cat x hx
    obtain ⟨a, ha, hax⟩ := catScores_mem hx
    exact hax ▸ h a ha
  by_cases hans : answers = []
  · subst hans
    unfold IE.generate_summary
    norm_num
  · unfold IE.generate_summary
    simp only [hans, if_false]
    refine ⟨?_, avgOf_bounds (hcat _), avgOf_bounds (hcat _), avgOf_bounds (hcat _)⟩
    by_cases ht : IE.catScores answers "behavioral" ++ IE.catScores answers "technical" ++
        IE.catScores answers "situational" = []
    · simp only [ht, if_true]
      norm_num
    · simp only [ht, if_false]
      refine round_mean_bounds ht ?_
      intro x hx
      rcases List.mem_append.mp hx with hx1 | hx2
      · rcases List.mem_append.mp hx1 with hx3 | hx4
        · exact hcat _ x hx3
        · exact hcat _ x hx4
      · exact hcat _ x hx2

theorem catScores_sum_eq (answers : List IE.AnswerIn) :
    (IE.catScores answers "behavioral").sum + (IE.catScores answers "technical").sum +
      (IE.catScores answers "situational").sum = (knownScores answers).sum := by
  induction answers with
  | nil => simp [IE.catScores, knownScores]
  | cons a t ih =>
      by_cases hb : a.category = "behavioral"
      · have h2 : ¬ (a.category = "technical") := by rw [hb]; decide
        have h3 : ¬ (a.category = "situational") := by rw [hb]; decide
        simp only [IE.catScores, knownScores, List.filter_cons, hb, h2, h3] at ih ⊢
        simp at ih ⊢
        linarith
      · by_cases h2 : a.category = "technical"
        · have h3 : ¬ (a.category = "situational") := by rw [h2]; decide
          simp only [IE.catScores, knownScores, List.filter_cons, hb, h2, h3] at ih ⊢
          simp at ih ⊢
          linarith
        · by_cases h3 : a.category = "situational"
          · simp only [IE.catScores, knownScores, List.filter_cons, hb, h2, h3] at ih ⊢
            simp at ih ⊢
            linarith
          · simp only [IE.catScores, knownScores, List.filter_cons, hb, h2, h3] at ih ⊢
            simp [hb, h2, h3] at ih ⊢
            linarith

theorem catScores_length_eq (answers : List IE.AnswerIn) :
    (IE.catScores answers "behavioral").length +
      (IE.catScores answers "technical").length +
      (IE.catScores answers "situational").length = (knownScores answers).length := by
  induction answers with
  | nil => simp [IE.catScores, knownScores]
  | cons a t ih =>
      by_cases hb : a.category = "behavioral"
      · have h2 : ¬ (a.category = "technical") := by rw [hb]; decide
        have h3 : ¬ (a.category = "situational") := by rw [hb]; decide
        simp only [IE.catScores, knownScores, List.filter_cons, hb, h2, h3] at ih ⊢
        simp at ih ⊢
        omega
      · by_cases h2 : a.category = "technical"
        · have h3 : ¬ (a.category = "situational") := by rw [h2]; decide
          simp only [IE.catScores, knownScores, List.filter_cons, hb, h2, h3] at ih ⊢
          simp at ih ⊢
          omega
        · by_cases h3 : a.category = "situational"
          · simp only [IE.catScores, knownScores, List.filter_cons, hb, h2, h3] at ih ⊢
            simp at ih ⊢
            omega
          · simp only [IE.catScores, knownScores, List.filter_cons, hb, h2, h3] at ih ⊢
            simp at ih ⊢
            omega

theorem mem_ite_single {c : Prop} [Decidable c] {x y : String} :
    x ∈ (if c then [y] else ([] : List String)) ↔ c ∧ x = y := by
  split_ifs with h <;> simp [h]

theorem mem_recs0Of_star (b t s : Option ℚ) :
    starTemplate ∈ IE.recs0Of b t s ↔ IE.recCondition b = true := by
  simp [IE.recs0Of, List.mem_append, mem_ite_single, starTemplate,
    technicalTemplate, situationalTemplate]

theorem mem_recs0Of_technical (b t s : Option ℚ) :
    technicalTemplate ∈ IE.recs0Of b t s ↔ IE.recCondition t = true := by
  simp [IE.recs0Of, List.mem_append, mem_ite_single, starTemplate,
    technicalTemplate, situationalTemplate]

theorem mem_recs0Of_situational (b t s : Option ℚ) :
    situationalTemplate ∈ IE.recs0Of b t s ↔ IE.recCondition s = true := by
  simp [IE.recs0Of, List.mem_append, mem_ite_single, starTemplate,
    technicalTemplate, situationalTemplate]

theorem template_mem_iff (b t s : Option ℚ) (mc : List String) (ov : ℚ)
    (hmB : starTemplate ∉ mc) (hmT : technicalTemplate ∉ mc)
    (hmS : situationalTemplate ∉ mc) (hmc2 : mc.length ≤ 2) :
    (starTemplate ∈ IE.recsFinal b t s mc ov ↔ IE.recCondition b = true) ∧
    (technicalTemplate ∈ IE.recsFinal b t s mc ov ↔ IE.recCondition t = true) ∧
    (situationalTemplate ∈ IE.recsFinal b t s mc ov ↔ IE.recCondition s = true) := by
  have hlen0 : (IE.recs0Of b t s).length ≤ 3 := by
    unfold IE.recs0Of
    split_ifs <;> simp
  have hlen1 : (dedupAppend (IE.recs0Of b t s) mc).length ≤ 5 :=
    le_trans dedupAppend_length (by omega)
  unfold IE.recsFinal
  dsimp only
  by_cases hr : dedupAppend (IE.recs0Of b t s) mc = []
  · simp only [hr, if_true]
    have h0 : IE.recs0Of b t s = [] := by
      by_contra h0ne
      exact dedupAppend_ne_nil h0ne hr
    have hB : IE.recCondition b ≠ true := by
      intro hb
      have hmem := (mem_recs0Of_star b t s).mpr hb
      rw [h0] at hmem
      simp at hmem
    have hT : IE.recCondition t ≠ true := by
      intro ht
      have hmem := (mem_recs0Of_technical b t s).mpr ht
      rw [h0] at hmem
      simp at hmem
    have hS : IE.recCondition s ≠ true := by
      intro hs
      have hmem := (mem_recs0Of_situational b t s).mpr hs
      rw [h0] at hmem
      simp at hmem
    split_ifs <;>
      simp [hB, hT, hS, starTemplate, technicalTemplate, situationalTemplate]
  · simp only [hr, if_false]
    rw [List.take_of_length_le hlen1]
    exact ⟨(mem_dedupAppend_iff hmB).trans (mem_recs0Of_star b t s),
      (mem_dedupAppend_iff hmT).trans (mem_recs0Of_technical b t s),
      (mem_dedupAppend_iff hmS).trans (mem_recs0Of_situational b t s)⟩

theorem mostCommon_length_le (l : List String) (n : Nat) :
    (mostCommon l n).length ≤ n := by
  unfold mostCommon
  exact List.length_take_le _ _

/-- C8: the keyword sub-score computation of evaluateAnswer, called with an
empty expectedKeywords list, returns the fixed default score 70 with empty
found/missed lists, regardless of the answer text and the stopword data. -/
theorem c8_keyword_default (stop : List String) (answer_text : String) :
    IE.calculate_keyword_score stop answer_text [] = (70, [], []) := by
  simp [IE.calculate_keyword_score]

/-- C5: the relevance sub-score on similarity s (the TF-IDF cosine
similarity, a value in [0,1]) equals max(40, s*100+30) rounded to two
decimals, is never below 40, and equals exactly 60 when the internal
vectorization raises. -/
theorem c5_relevance (s : ℚ) (h0 : 0 ≤ s) (h1 : s ≤ 1) :
    IE.calculate_relevance_score (some s) = roundTo2 (max 40 (s * 100 + 30)) ∧
    40 ≤ IE.calculate_relevance_score (some s) ∧
    IE.calculate_relevance_score none = 60 := by
  refine ⟨rfl, ?_, rfl⟩
  have h40 : (0:ℚ) ≤ s := h0
  exact (relevance_score_bounds h1).1

theorem c5_relevance_witness :
    (0 ≤ (1/2 : ℚ)) ∧ ((1/2 : ℚ) ≤ 1) ∧
    (IE.calculate_relevance_score (some (1/2)) =
        roundTo2 (max 40 ((1/2) * 100 + 30)) ∧
      40 ≤ IE.calculate_relevance_score (some (1/2)) ∧
      IE.calculate_relevance_score none = 60) :=
  ⟨by norm_num, by norm_num, c5_relevance (1/2) (by norm_num) (by norm_num)⟩

/-- C10: the structural quality sub-score always lies in [60, 100]: it
starts from a base of 60, is only increased by the fixed bonuses, and is
clamped at 100. -/
theorem c10_structure_bounds (category answer_text : String) :
    60 ≤ (IE.calculate_structure_score answer_text category).1 ∧
      (IE.calculate_structure_score answer_text category).1 ≤ 100 :=
  structure_score_bounds answer_text category

/-- C9: with a fixed non-empty expected keyword list, the keyword coverage
sub-score is monotone in the matched set: if every keyword matched by the
first answer is matched by the second, the second scores at least as high. -/
theorem c9_keyword_monotone (stop : List String) (ans1 ans2 : String)
    (kws : List String) (hne : kws ≠ [])
    (hsub : ∀ k ∈ kws, IE.kwMatch stop ans1 k = true →
      IE.kwMatch stop ans2 k = true) :
    (IE.calculate_keyword_score stop ans1 kws).1 ≤
      (IE.calculate_keyword_score stop ans2 kws).1 := by
  unfold IE.calculate_keyword_score
  simp only [hne, if_false]
  have hcount : (kws.filter (fun k => IE.kwMatch stop ans1 k)).length ≤
      (kws.filter (fun k => IE.kwMatch stop ans2 k)).length := by
    rw [← List.countP_eq_length_filter, ← List.countP_eq_length_filter]
    exact List.countP_mono_left hsub
  refine roundTo2_mono ?_
  refine min_le_min (le_refl _) ?_
  have hNpos : (0:ℚ) < (kws.length : ℚ) := by
    have := List.length_pos.mpr hne
    exact_mod_cast this
  have hdiv : ((kws.filter (fun k => IE.kwMatch stop ans1 k)).length : ℚ) /
      (kws.length : ℚ) ≤
      ((kws.filter (fun k => IE.kwMatch stop ans2 k)).length : ℚ) /
      (kws.length : ℚ) := by
    gcongr
  linarith

theorem c9_keyword_monotone_witness :
    ((["python"] : List String) ≠ []) ∧
    (∀ k ∈ (["python"] : List String), IE.kwMatch [] "" k = true →
      IE.kwMatch [] "python is great" k = true) ∧
    (IE.calculate_keyword_score [] "" ["python"]).1 ≤
      (IE.calculate_keyword_score [] "python is great" ["python"]).1 :=
  ⟨by decide, by with_unfolding_all decide,
    c9_keyword_monotone [] "" "python is great" ["python"] (by decide)
      (by with_unfolding_all decide)⟩

/-- C4: counterexample to "no keyword list in a single returned result
contains duplicate entries": a duplicated expected keyword list makes
keywords_found itself duplicated. -/
theorem c4_counterexample :
    ¬ ((IE.calculate_keyword_score [] "aa" ["aa", "aa"]).2.1.Nodup) := by
  with_unfolding_all decide

/-- C4 (amended): keywords_found and keywords_missed are duplicate-free
whenever the expected keyword list has no duplicates, and the matched and
missing keyword lists of analyzeResumeMatch are always duplicate-free. -/
theorem c4_amended (stop : List String) (ans : String) (kws : List String)
    (hnd : kws.Nodup) :
    ((IE.calculate_keyword_score stop ans kws).2.1.Nodup ∧
      (IE.calculate_keyword_score stop ans kws).2.2.Nodup) ∧
    (∀ (cos : ℚ) (stop2 : List String) (resume jd : String),
      (ATS.analyze cos stop2 resume jd).matched_keywords.Nodup ∧
        (ATS.analyze cos stop2 resume jd).missing_keywords.Nodup) := by
  constructor
  · constructor <;>
    · unfold IE.calculate_keyword_score
      split_ifs <;> exact List.Nodup.filter _ hnd
  · intro cos stop2 resume jd
    unfold ATS.analyze
    dsimp only
    exact ⟨List.Nodup.filter _ (mostCommon_nodup _ _),
      List.Nodup.filter _ (mostCommon_nodup _ _)⟩

theorem c4_amended_witness :
    (["x"] : List String).Nodup ∧
    (((IE.calculate_keyword_score [] "x" ["x"]).2.1.Nodup ∧
       (IE.calculate_keyword_score [] "x" ["x"]).2.2.Nodup) ∧
     (∀ (cos : ℚ) (stop2 : List String) (resume jd : String),
       (ATS.analyze cos stop2 resume jd).matched_keywords.Nodup ∧
         (ATS.analyze cos stop2 resume jd).missing_keywords.Nodup)) :=
  ⟨by decide, c4_amended [] "x" ["x"] (by decide)⟩

/-- C7: analyzeResumeMatch on two empty strings returns score 0 and empty
keyword lists, and in general an internal vectorization failure (empty
vocabulary) is recovered locally as score 0. -/
theorem c7_empty_inputs (cos : ℚ) (stop : List String) :
    ATS.analyze cos stop "" "" = ATS.ATSResult.mk 0 [] [] ∧
    (∀ resume jd : String,
      (ATS.sklearnTokens stop (ATS.clean_text resume)).isEmpty ∧
        (ATS.sklearnTokens stop (ATS.clean_text jd)).isEmpty →
      (ATS.analyze cos stop resume jd).score = 0) := by
  constructor
  · have hclean : ATS.clean_text "" = "" := by with_unfolding_all decide
    have hsplit : pySplitWs "" = [] := by with_unfolding_all decide
    unfold ATS.analyze ATS.calculate_similarity ATS.extract_keywords
    rw [hclean]
    simp [ATS.sklearnTokens, hsplit, mostCommon, orderedKeys]
  · intro resume jd hcond
    unfold ATS.analyze ATS.calculate_similarity
    dsimp only
    rw [if_pos hcond]

theorem c7_empty_inputs_witness :
    ((ATS.sklearnTokens [] (ATS.clean_text "")).isEmpty ∧
      (ATS.sklearnTokens [] (ATS.clean_text "")).isEmpty) ∧
    (ATS.analyze (1/2) [] "" "").score = 0 :=
  ⟨by with_unfolding_all decide,
    (c7_empty_inputs (1/2) []).2 "" "" (by with_unfolding_all decide)⟩

theorem readiness_iff (ov : ℚ) :
    ((if 80 ≤ ov then "High" else if 60 ≤ ov then "Medium" else "Low") = "High" ↔
      80 ≤ ov) ∧
    ((if 80 ≤ ov then "High" else if 60 ≤ ov then "Medium" else "Low") = "Medium" ↔
      (60 ≤ ov ∧ ov < 80)) ∧
    ((if 80 ≤ ov then "High" else if 60 ≤ ov then "Medium" else "Low") = "Low" ↔
      ov < 60) := by
  split_ifs with h1 h2
  · refine ⟨by simp [h1], ?_, ?_⟩
    · simp only [show ("High" = "Medium") = False by simp, false_iff]
      intro hm
      linarith [hm.2]
    · simp only [show ("High" = "Low") = False by simp, false_iff]
      intro hlt
      linarith
  · refine ⟨?_, ?_, ?_⟩
    · simp only [show ("Medium" = "High") = False by simp, false_iff]
      exact h1
    · simp only [show ("Medium" = "Medium") = True by simp, true_iff]
      exact ⟨h2, lt_of_not_le h1⟩
    · simp only [show ("Medium" = "Low") = False by simp, false_iff]
      intro hlt
      linarith
  · refine ⟨?_, ?_, ?_⟩
    · simp only [show ("Low" = "High") = False by simp, false_iff]
      exact h1
    · simp only [show ("Low" = "Medium") = False by simp, false_iff]
      intro hm
      exact h2 hm.1
    · simp only [show ("Low" = "Low") = True by simp, true_iff]
      exact lt_of_not_le h2

/-- C6: readiness_level is High exactly when overall_score is at least 80,
Medium exactly when it is in [60, 80), and Low exactly when it is below 60,
for every input to summarizeSession. -/
theorem c6_readiness (job_role : String) (answers : List IE.AnswerIn) :
    ((IE.generate_summary job_role answers).readiness_level = "High" ↔
      80 ≤ (IE.generate_summary job_role answers).overall_score) ∧
    ((IE.generate_summary job_role answers).readiness_level = "Medium" ↔
      (60 ≤ (IE.generate_summary job_role answers).overall_score ∧
        (IE.generate_summary job_role answers).overall_score < 80)) ∧
    ((IE.generate_summary job_role answers).readiness_level = "Low" ↔
      (IE.generate_summary job_role answers).overall_score < 60) := by
  by_cases hans : answers = []
  · subst hans
    unfold IE.generate_summary
    norm_num
    exact ⟨by decide, by decide⟩
  · unfold IE.generate_summary
    simp only [hans, if_false]
    exact readiness_iff _

/-- C2: counterexample to "overall_score pools answers with unknown
categories": one behavioral answer scoring 90 plus one answer of unknown
category scoring 10 yields overall 90 (the unknown-category answer is
dropped), not the claimed pooled mean 50. -/
theorem c2_counterexample :
    (IE.generate_summary "r"
      [IE.AnswerIn.mk "behavioral" 90 [] [], IE.AnswerIn.mk "weird" 10 [] []]).overall_score = 90 ∧
    roundTo2 ((90 + 10) / 2) = 50 ∧ (90 : ℚ) ≠ 50 := by
  refine ⟨?_, ?_, ?_⟩ <;> with_unfolding_all decide

/-- C2 (amended): overall_score is the arithmetic mean, rounded to two
decimals, of the scores of the answers whose category is one of the three
known categories, pooled together with equal weights; answers with unknown
categories are excluded from the overall average as well, and if no answer
has a known category the overall score is 0. -/
theorem c2_amended (role : String) (answers : List IE.AnswerIn) :
    (knownScores answers ≠ [] →
      (IE.generate_summary role answers).overall_score =
        roundTo2 ((knownScores answers).sum / ((knownScores answers).length : ℚ))) ∧
    (knownScores answers = [] →
      (IE.generate_summary role answers).overall_score = 0) := by
  have hsum := catScores_sum_eq answers
  have hlen := catScores_length_eq answers
  constructor
  · intro hne
    have hans : answers ≠ [] := by
      intro h
      subst h
      exact hne (by simp [knownScores])
    unfold IE.generate_summary
    simp only [hans, if_false]
    have htot : (IE.catScores answers "behavioral" ++ IE.catScores answers "technical" ++
        IE.catScores answers "situational") ≠ [] := by
      intro h
      apply hne
      have h0 := congrArg List.length h
      simp only [List.length_append, List.length_nil] at h0
      rw [← List.length_eq_zero]
      omega
    simp only [htot, if_false]
    have hs : (IE.catScores answers "behavioral" ++ IE.catScores answers "technical" ++
        IE.catScores answers "situational").sum = (knownScores answers).sum := by
      simp only [List.sum_append]
      linarith
    have hl : ((IE.catScores answers "behavioral" ++ IE.catScores answers "technical" ++
        IE.catScores answers "situational").length : ℚ) =
        ((knownScores answers).length : ℚ) := by
      simp only [List.length_append]
      exact_mod_cast (by omega : (IE.catScores answers "behavioral").length +
        (IE.catScores answers "technical").length +
        (IE.catScores answers "situational").length = (knownScores answers).length)
    rw [hs, hl]
  · intro hk
    by_cases hans : answers = []
    · subst hans
      unfold IE.generate_summary
      norm_num
    · unfold IE.generate_summary
      simp only [hans, if_false]
      have htot : (IE.catScores answers "behavioral" ++ IE.catScores answers "technical" ++
          IE.catScores answers "situational") = [] := by
        rw [← List.length_eq_zero]
        simp only [List.length_append]
        have hk0 : (knownScores answers).length = 0 := by rw [hk]; rfl
        omega
      simp only [htot, if_true]

theorem c2_amended_witness :
    (knownScores [IE.AnswerIn.mk "technical" 80 [] []] ≠ []) ∧
    (IE.generate_summary "r" [IE.AnswerIn.mk "technical" 80 [] []]).overall_score =
      roundTo2 ((knownScores [IE.AnswerIn.mk "technical" 80 [] []]).sum /
        ((knownScores [IE.AnswerIn.mk "technical" 80 [] []]).length : ℚ)) :=
  ⟨by with_unfolding_all decide,
    (c2_amended "r" [IE.AnswerIn.mk "technical" 80 [] []]).1
      (by with_unfolding_all decide)⟩

/-- C3: counterexample to "template emitted exactly when the category has
data and its average is below 70": a single behavioral answer with score 0
gives a behavioral average of 0 (below 70, with data), yet the STAR
recommendation template is not emitted, because the Python truthiness
guard treats the 0 average as falsy. -/
theorem c3_counterexample :
    (IE.generate_summary "r" [IE.AnswerIn.mk "behavioral" 0 [] []]).behavioral_avg =
      some 0 ∧
    starTemplate ∉
      (IE.generate_summary "r" [IE.AnswerIn.mk "behavioral" 0 [] []]).recommendations := by
  constructor <;> with_unfolding_all decide

/-- C3 (amended): provided no input improvement string equals one of the
three templates, the per-category recommendation template appears in the
recommendations exactly when that category has at least one contributing
answer and its (rounded) average score is nonzero and strictly below 70;
an average of exactly 0 suppresses the template (Python truthiness). -/
theorem c3_amended (role : String) (answers : List IE.AnswerIn)
    (h : ∀ a ∈ answers, starTemplate ∉ a.improvements ∧
      technicalTemplate ∉ a.improvements ∧ situationalTemplate ∉ a.improvements) :
    (starTemplate ∈ (IE.generate_summary role answers).recommendations ↔
      ∃ v, IE.avgOf (IE.catScores answers "behavioral") = some v ∧ v ≠ 0 ∧ v < 70) ∧
    (technicalTemplate ∈ (IE.generate_summary role answers).recommendations ↔
      ∃ v, IE.avgOf (IE.catScores answers "technical") = some v ∧ v ≠ 0 ∧ v < 70) ∧
    (situationalTemplate ∈ (IE.generate_summary role answers).recommendations ↔
      ∃ v, IE.avgOf (IE.catScores answers "situational") = some v ∧ v ≠ 0 ∧ v < 70) := by
  by_cases hans : answers = []
  · subst hans
    unfold IE.generate_summary
    simp [IE.avgOf, IE.catScores, starTemplate, technicalTemplate, situationalTemplate]
  · have hmc : ∀ tmpl : String, (∀ a ∈ answers, tmpl ∉ a.improvements) →
        tmpl ∉ mostCommon ((answers.map (fun a => a.improvements)).flatten) 2 := by
      intro tmpl htmpl hmem
      have h2 := mostCommon_subset hmem
      rw [List.mem_flatten] at h2
      obtain ⟨l, hl, hxl⟩ := h2
      rw [List.mem_map] at hl
      obtain ⟨a, ha, hal⟩ := hl
      exact htmpl a ha (hal ▸ hxl)
    have hmcB := hmc starTemplate (fun a ha => (h a ha).1)
    have hmcT := hmc technicalTemplate (fun a ha => (h a ha).2.1)
    have hmcS := hmc situationalTemplate (fun a ha => (h a ha).2.2)
    unfold IE.generate_summary
    simp only [hans, if_false]
    obtain ⟨h1, h2, h3⟩ := template_mem_iff
      (IE.avgOf (IE.catScores answers "behavioral"))
      (IE.avgOf (IE.catScores answers "technical"))
      (IE.avgOf (IE.catScores answers "situational"))
      (mostCommon ((answers.map (fun a => a.improvements)).flatten) 2)
      (if (IE.catScores answers "behavioral" ++ IE.catScores answers "technical" ++
          IE.catScores answers "situational") = [] then 0
       else roundTo2 ((IE.catScores answers "behavioral" ++
          IE.catScores answers "technical" ++
          IE.catScores answers "situational").sum /
          ((IE.catScores answers "behavioral" ++ IE.catScores answers "technical" ++
            IE.catScores answers "situational").length : ℚ)))
      hmcB hmcT hmcS (mostCommon_length_le _ 2)
    exact ⟨h1.trans (recCondition_iff _), h2.trans (recCondition_iff _),
      h3.trans (recCondition_iff _)⟩

theorem c3_amended_witness :
    (∀ a ∈ [IE.AnswerIn.mk "behavioral" 50 [] []], starTemplate ∉ a.improvements ∧
      technicalTemplate ∉ a.improvements ∧ situationalTemplate ∉ a.improvements) ∧
    ((starTemplate ∈
        (IE.generate_summary "r" [IE.AnswerIn.mk "behavioral" 50 [] []]).recommendations ↔
      ∃ v, IE.avgOf (IE.catScores [IE.AnswerIn.mk "behavioral" 50 [] []] "behavioral") =
        some v ∧ v ≠ 0 ∧ v < 70) ∧
     (technicalTemplate ∈
        (IE.generate_summary "r" [IE.AnswerIn.mk "behavioral" 50 [] []]).recommendations ↔
      ∃ v, IE.avgOf (IE.catScores [IE.AnswerIn.mk "behavioral" 50 [] []] "technical") =
        some v ∧ v ≠ 0 ∧ v < 70) ∧
     (situationalTemplate ∈
        (IE.generate_summary "r" [IE.AnswerIn.mk "behavioral" 50 [] []]).recommendations ↔
      ∃ v, IE.avgOf (IE.catScores [IE.AnswerIn.mk "behavioral" 50 [] []] "situational") =
        some v ∧ v ≠ 0 ∧ v < 70)) :=
  ⟨by decide, c3_amended "r" [IE.AnswerIn.mk "behavioral" 50 [] []] (by decide)⟩

set_option maxRecDepth 40000 in
set_option maxHeartbeats 4000000 in
/-- C1: counterexample to "every score lies in [0,100]": with the question
identical to the answer the TF-IDF cosine similarity is 1, so the
relevance sub-score is 130, and a 38-word answer that matches its expected
keyword, uses three quality connectives, three action verbs, an example
phrase and a metric then receives a final evaluateAnswer score of 101.25,
above 100. -/
theorem c1_counterexample :
    IE.calculate_relevance_score (some 1) = 130 ∧
    100 < (IE.evaluate_answer (some 1) [] "technical"
      "team led created improved specifically because example 50% a a a a a a a a a a a a a a a a a a a a a a a a a a a a a a"
      ["team"]).score := by
  constructor <;> with_unfolding_all decide

/-- C1 (amended): the keyword, length and structure sub-scores lie in
[0,100]; the relevance sub-score lies in [40,130] (60 on failure) and can
exceed 100; the final evaluateAnswer score lies in [0, 106.75] and can
exceed 100; the analyzeResumeMatch score and the overall and per-category
scores of summarizeSession lie in [0,100] (the latter given input answer
scores in [0,100]). -/
theorem c1_amended (stop : List String) (cat ans : String) (kws : List String)
    (simRes : Option ℚ) (hsim : ∀ s, simRes = some s → 0 ≤ s ∧ s ≤ 1)
    (cos : ℚ) (hc0 : 0 ≤ cos) (hc1 : cos ≤ 1) (resume jd role : String)
    (answers : List IE.AnswerIn)
    (hans : ∀ a ∈ answers, 0 ≤ a.score ∧ a.score ≤ 100) :
    (0 ≤ (IE.calculate_keyword_score stop ans kws).1 ∧
      (IE.calculate_keyword_score stop ans kws).1 ≤ 100) ∧
    (0 ≤ (IE.calculate_length_score ans cat).1 ∧
      (IE.calculate_length_score ans cat).1 ≤ 100) ∧
    (0 ≤ (IE.calculate_structure_score ans cat).1 ∧
      (IE.calculate_structure_score ans cat).1 ≤ 100) ∧
    (40 ≤ IE.calculate_relevance_score simRes ∧
      IE.calculate_relevance_score simRes ≤ 130) ∧
    (0 ≤ (IE.evaluate_answer simRes stop cat ans kws).score ∧
      (IE.evaluate_answer simRes stop cat ans kws).score ≤ 427 / 4) ∧
    (0 ≤ (ATS.analyze cos stop resume jd).score ∧
      (ATS.analyze cos stop resume jd).score ≤ 100) ∧
    ((0 ≤ (IE.generate_summary role answers).overall_score ∧
      (IE.generate_summary role answers).overall_score ≤ 100) ∧
     (∀ v, (IE.generate_summary role answers).behavioral_avg = some v →
        0 ≤ v ∧ v ≤ 100) ∧
     (∀ v, (IE.generate_summary role answers).technical_avg = some v →
        0 ≤ v ∧ v ≤ 100) ∧
     (∀ v, (IE.generate_summary role answers).situational_avg = some v →
        0 ≤ v ∧ v ≤ 100)) := by
  refine ⟨keyword_score_bounds stop ans kws, ?_, ?_, ?_, ?_, ?_,
    generate_summary_bounds role answers hans⟩
  · have hb := length_score_bounds ans cat
    exact ⟨by linarith [hb.1], by linarith [hb.2]⟩
  · have hb := structure_score_bounds ans cat
    exact ⟨by linarith [hb.1], by linarith [hb.2]⟩
  · exact relevance_default_bounds simRes (fun s hs => (hsim s hs).2)
  · exact evaluate_answer_score_bounds simRes stop cat ans kws
      (fun s hs => (hsim s hs).2)
  · unfold ATS.analyze ATS.calculate_similarity
    dsimp only
    split_ifs with hc
    · norm_num
    · constructor
      · have h0 : ((0:ℤ):ℚ) ≤ cos * 100 := by push_cast; nlinarith
        have := int_le_roundTo2 h0
        exact_mod_cast this
      · have h1 : cos * 100 ≤ ((100:ℤ):ℚ) := by push_cast; nlinarith
        have := roundTo2_le_int h1
        exact_mod_cast this

theorem c1_amended_witness :
    (∀ s : ℚ, (some (1/2) : Option ℚ) = some s → 0 ≤ s ∧ s ≤ 1) ∧
    (0 ≤ (1/2 : ℚ)) ∧ ((1/2 : ℚ) ≤ 1) ∧
    (∀ a ∈ [IE.AnswerIn.mk "technical" 80 [] []], 0 ≤ a.score ∧ a.score ≤ 100) ∧
    ((0 ≤ (IE.calculate_keyword_score [] "x" []).1 ∧
       (IE.calculate_keyword_score [] "x" []).1 ≤ 100) ∧
     (0 ≤ (IE.calculate_length_score "x" "c").1 ∧
       (IE.calculate_length_score "x" "c").1 ≤ 100) ∧
     (0 ≤ (IE.calculate_structure_score "x" "c").1 ∧
       (IE.calculate_structure_score "x" "c").1 ≤ 100) ∧
     (40 ≤ IE.calculate_relevance_score (some (1/2)) ∧
       IE.calculate_relevance_score (some (1/2)) ≤ 130) ∧
     (0 ≤ (IE.evaluate_answer (some (1/2)) [] "c" "x" []).score ∧
       (IE.evaluate_answer (some (1/2)) [] "c" "x" []).score ≤ 427 / 4) ∧
     (0 ≤ (ATS.analyze (1/2) [] "" "").score ∧
       (ATS.analyze (1/2) [] "" "").score ≤ 100) ∧
     ((0 ≤ (IE.generate_summary "r" [IE.AnswerIn.mk "technical" 80 [] []]).overall_score ∧
       (IE.generate_summary "r" [IE.AnswerIn.mk "technical" 80 [] []]).overall_score ≤ 100) ∧
      (∀ v, (IE.generate_summary "r" [IE.AnswerIn.mk "technical" 80 [] []]).behavioral_avg =
          some v → 0 ≤ v ∧ v ≤ 100) ∧
      (∀ v, (IE.generate_summary "r" [IE.AnswerIn.mk "technical" 80 [] []]).technical_avg =
          some v → 0 ≤ v ∧ v ≤ 100) ∧
      (∀ v, (IE.generate_summary "r" [IE.AnswerIn.mk "technical" 80 [] []]).situational_avg =
          some v → 0 ≤ v ∧ v ≤ 100))) :=
  ⟨fun s hs => by
      have h2 := Option.some_inj.mp hs
      subst h2
      norm_num,
   by norm_num, by norm_num,
   by with_unfolding_all decide,
   c1_amended [] "c" "x" [] (some (1/2))
     (fun s hs => by
       have h2 := Option.some_inj.mp hs
       subst h2
       norm_num)
     (1/2) (by norm_num) (by norm_num) "" "" "r"
     [IE.AnswerIn.mk "technical" 80 [] []]
     (by with_unfolding_all decide)⟩

end Confido
